import Mathlib

/-!
Verification development for `tsensor` (`src/main.rs`), a terminal hardware
telemetry dashboard.  The Rust program is shallowly embedded: `f64` readings
are modelled as rationals (`ℚ`), a possibly-NaN declared maximum as
`Option ℚ` (`none` = NaN), the telemetry table as a list of
`(descriptor, value)` pairs, and the stateful event loop as a function from
the consumed `(terminal size, event)` stream to the list of performed
terminal actions plus the resulting loop state.
-/

namespace Tsensor

/-- Sensor categories of `libpsensor::PsensorType`; the `other` variant
carries the boolean discriminant used to flag sensors in or out of the
miscellaneous bucket (`PsensorType::Other(bool)`). -/
inductive PsensorType where
  | cpu
  | gpu
  | hdd
  | fan
  | other (flag : Bool)
deriving DecidableEq

/-- Sensor descriptor (`libpsensor::Psensor`): stable `id`, display `name`,
category `sensor`, and declared scale ceiling `max`, where `none` models an
f64 NaN ("unknown ceiling"). -/
structure Psensor where
  id : Nat
  name : String
  sensor : PsensorType
  max : Option ℚ
deriving DecidableEq

/-- Truncation of a rational toward zero, the rounding used by Rust
float-to-integer `as` casts. -/
def ratTrunc (q : ℚ) : Int :=
  Int.sign q.num * (q.num.natAbs / q.den : Nat)

/-- The Rust saturating `f64 as u64` cast: truncate toward zero, clamp into
`[0, 2^64 - 1]` (negative values become `0`). -/
def f64AsU64 (q : ℚ) : Nat :=
  min (ratTrunc q).toNat (2 ^ 64 - 1)

/-- Function `filter_sensor` from `src/main.rs`: select the snapshot entries
of one category, pair the name of each selected entry with its reading cast
to `u64`,
and compute the chart ceiling as the `u64` maximum of the non-NaN declared
`max` values, falling back to `default_max`. -/
def filter_sensor (sensors : List (Psensor × ℚ)) (sensor_type : PsensorType)
    (default_max : Nat) : List (String × Nat) × Nat :=
  let tmp := sensors.filterMap fun p =>
    if p.1.sensor = sensor_type then some (p.1.max, (p.1.name, f64AsU64 p.2))
    else none
  let cpus_max_temp :=
    (((tmp.map Prod.fst).filterMap id).map f64AsU64).max?.getD default_max
  (tmp.map Prod.snd, cpus_max_temp)

/-- Terminal rectangle (`tui::layout::Rect`). -/
structure Rect where
  x : Nat
  y : Nat
  width : Nat
  height : Nat
deriving DecidableEq

/-- Constructor `Rect::default()`: the all-zero rectangle. -/
def Rect.default : Rect := ⟨0, 0, 0, 0⟩

/-- Shared application state (`struct App`): current terminal size and the
telemetry table. -/
structure App where
  size : Rect
  data : List (Psensor × ℚ)
deriving DecidableEq

/-- Construction of the telemetry table in `App::new`: one entry per
discovered sensor, in discovery order, each value initialized to `1.0`. -/
def App.new (sensors : List Psensor) : App :=
  ⟨Rect.default, sensors.map fun sensor => (sensor, 1)⟩

/-- The poller handler for one `(id, value)` stream event (the `for` loop
inside `App::new`): scan the table and overwrite the value of the first
entry whose descriptor `id` matches, then stop (`break`). -/
def applyUpdate (data : List (Psensor × ℚ)) (sensorId : Nat) (new_value : ℚ) :
    List (Psensor × ℚ) :=
  match data with
  | [] => []
  | (s, value) :: rest =>
    if sensorId = s.id then (s, new_value) :: rest
    else (s, value) :: applyUpdate rest sensorId new_value

/-- Deliver a sequence of `(id, value)` events to the poller in order. -/
def applyUpdates (data : List (Psensor × ℚ)) (events : List (Nat × ℚ)) :
    List (Psensor × ℚ) :=
  events.foldl (fun d e => applyUpdate d e.1 e.2) data

/-- Decoded key events (`termion::event::Key`); only `Char` matters to the
program, the remaining variants are collapsed into `other`. -/
inductive Key where
  | char (c : Char)
  | other (code : Nat)
deriving DecidableEq

/-- The designated quit key, `Key::Char('q')`. -/
def quitKey : Key := Key.char 'q'

/-- Renderer event type (`enum Event` from `src/main.rs`). -/
inductive Event where
  | input (k : Key)
  | tick
deriving DecidableEq

/-- Observable terminal actions of the event loop. -/
inductive Action where
  | resize (size : Rect)
  | draw
  | showCursor
deriving DecidableEq

/-- State of the event loop. -/
inductive LoopState where
  | running
  | terminating
deriving DecidableEq

/-- The `loop` in `main` plus the final `show_cursor`: each iteration
queries the terminal size (the head of the consumed pair), resizes if it
differs from the stored size, receives one event, breaks on
`Input(Key::Char('q'))`, and otherwise redraws.  The argument list is the
stream of `(queried size, received event)` pairs the loop consumes; an
exhausted list models a loop still blocked in `recv`, hence still
`running` with no cursor restore. -/
def mainLoop : List (Rect × Event) → Rect → List Action × LoopState
  | [], _ => ([], LoopState.running)
  | (size, evt) :: rest, cur =>
    let pre : List Action := if cur ≠ size then [Action.resize size] else []
    let cur' : Rect := if cur ≠ size then size else cur
    match evt with
    | Event.input input =>
      if input = quitKey then (pre ++ [Action.showCursor], LoopState.terminating)
      else
        let r := mainLoop rest cur'
        (pre ++ Action.draw :: r.1, r.2)
    | Event.tick =>
      let r := mainLoop rest cur'
      (pre ++ Action.draw :: r.1, r.2)

/-- The input listener thread: forward each decoded key as `Event::Input`,
and stop reading after forwarding the quit key.  Returns the sequence of
events sent on the channel for a given sequence of decoded keys. -/
def inputListener : List Key → List Event
  | [] => []
  | k :: rest =>
    Event.input k :: (if k = quitKey then [] else inputListener rest)

/-- The five per-category buckets built by `draw`, with their fixed
per-category default ceilings. -/
structure DrawData where
  cpus : List (String × Nat) × Nat
  gpus : List (String × Nat) × Nat
  hdds : List (String × Nat) × Nat
  fans : List (String × Nat) × Nat
  others : List (String × Nat) × Nat
deriving DecidableEq

/-- The bucketing performed at the top of `draw`. -/
def drawBuckets (data : List (Psensor × ℚ)) : DrawData :=
  ⟨filter_sensor data PsensorType.cpu 80,
   filter_sensor data PsensorType.gpu 90,
   filter_sensor data PsensorType.hdd 60,
   filter_sensor data PsensorType.fan 4000,
   filter_sensor data (PsensorType.other true) 80⟩

/-- The non-NaN declared `max` values of the snapshot entries in one
category, in snapshot order. -/
def declaredMaxes (data : List (Psensor × ℚ)) (st : PsensorType) : List ℚ :=
  ((data.filter fun p => decide (p.1.sensor = st)).map fun p => p.1.max).filterMap id

/-! ### Characterization of `filter_sensor` -/

theorem filterMap_ite_map_fst {α β γ : Type _} (P : α → Prop) [DecidablePred P]
    (f : α → β) (g : α → γ) :
    ∀ l : List α,
      (l.filterMap fun a => if P a then some (f a, g a) else none).map Prod.fst
        = (l.filter fun a => decide (P a)).map f
  | [] => rfl
  | a :: l => by
    by_cases h : P a <;>
      simp [List.filterMap_cons, List.filter_cons, h, filterMap_ite_map_fst P f g l]

theorem filterMap_ite_map_snd {α β γ : Type _} (P : α → Prop) [DecidablePred P]
    (f : α → β) (g : α → γ) :
    ∀ l : List α,
      (l.filterMap fun a => if P a then some (f a, g a) else none).map Prod.snd
        = (l.filter fun a => decide (P a)).map g
  | [] => rfl
  | a :: l => by
    by_cases h : P a <;>
      simp [List.filterMap_cons, List.filter_cons, h, filterMap_ite_map_snd P f g l]

/-- The bucket returned by `filter_sensor` is the snapshot restricted to the
requested category, each entry mapped to its name and cast reading. -/
theorem filter_sensor_fst (data : List (Psensor × ℚ)) (st : PsensorType) (d : Nat) :
    (filter_sensor data st d).1
      = (data.filter fun p => decide (p.1.sensor = st)).map
          fun p => (p.1.name, f64AsU64 p.2) := by
  simpa [filter_sensor] using
    filterMap_ite_map_snd (fun p : Psensor × ℚ => p.1.sensor = st)
      (fun p => p.1.max) (fun p => (p.1.name, f64AsU64 p.2)) data

/-- The ceiling returned by `filter_sensor` is the maximum of the cast
non-NaN declared maxima of the category, with `d` as fallback. -/
theorem filter_sensor_snd (data : List (Psensor × ℚ)) (st : PsensorType) (d : Nat) :
    (filter_sensor data st d).2
      = ((declaredMaxes data st).map f64AsU64).max?.getD d := by
  have h := filterMap_ite_map_fst (fun p : Psensor × ℚ => p.1.sensor = st)
    (fun p => p.1.max) (fun p => (p.1.name, f64AsU64 p.2)) data
  simp only [filter_sensor, declaredMaxes, h]

/-! ### C2: default ceilings -/

theorem ceiling_default (data : List (Psensor × ℚ)) (st : PsensorType) (d : Nat)
    (h : ∀ p ∈ data, p.1.sensor = st → p.1.max = none) :
    (filter_sensor data st d).2 = d := by
  rw [filter_sensor_snd]
  have hnil : declaredMaxes data st = [] := by
    rw [declaredMaxes, List.filterMap_eq_nil_iff]
    intro a ha
    obtain ⟨p, hp, rfl⟩ := List.mem_map.mp ha
    have hp' := List.mem_filter.mp hp
    exact h p hp'.1 (of_decide_eq_true hp'.2)
  simp [hnil]

/-- C2: for every category whose bucket is empty or whose members all
declare a NaN max, the chart ceiling equals the fixed default of that category:
CPU=80, GPU=90, HDD=60, Fan=4000, Other=80. -/
theorem default_ceiling_per_category (data : List (Psensor × ℚ)) :
    ((∀ p ∈ data, p.1.sensor = PsensorType.cpu → p.1.max = none) →
        (drawBuckets data).cpus.2 = 80) ∧
    ((∀ p ∈ data, p.1.sensor = PsensorType.gpu → p.1.max = none) →
        (drawBuckets data).gpus.2 = 90) ∧
    ((∀ p ∈ data, p.1.sensor = PsensorType.hdd → p.1.max = none) →
        (drawBuckets data).hdds.2 = 60) ∧
    ((∀ p ∈ data, p.1.sensor = PsensorType.fan → p.1.max = none) →
        (drawBuckets data).fans.2 = 4000) ∧
    ((∀ p ∈ data, p.1.sensor = PsensorType.other true → p.1.max = none) →
        (drawBuckets data).others.2 = 80) :=
  ⟨fun h => ceiling_default data _ _ h, fun h => ceiling_default data _ _ h,
   fun h => ceiling_default data _ _ h, fun h => ceiling_default data _ _ h,
   fun h => ceiling_default data _ _ h⟩

/-- Witness for C2 at the empty snapshot: all five buckets fall back to
their fixed defaults. -/
theorem default_ceiling_per_category_witness :
    (drawBuckets []).cpus.2 = 80 ∧ (drawBuckets []).gpus.2 = 90 ∧
    (drawBuckets []).hdds.2 = 60 ∧ (drawBuckets []).fans.2 = 4000 ∧
    (drawBuckets []).others.2 = 80 := by
  have h := default_ceiling_per_category []
  exact ⟨h.1 (by simp), h.2.1 (by simp), h.2.2.1 (by simp), h.2.2.2.1 (by simp),
    h.2.2.2.2 (by simp)⟩

/-! ### C9: the Other bucket and its boolean discriminant -/

theorem filter_sensor_drop_hidden (data : List (Psensor × ℚ)) (st : PsensorType)
    (d : Nat) (hst : st ≠ PsensorType.other false) :
    filter_sensor (data.filter fun p => decide (¬ p.1.sensor = PsensorType.other false)) st d
      = filter_sensor data st d := by
  have hfil : (data.filter fun p => decide (¬ p.1.sensor = PsensorType.other false)).filter
        (fun p => decide (p.1.sensor = st))
      = data.filter fun p => decide (p.1.sensor = st) := by
    rw [List.filter_filter]
    apply List.filter_congr
    intro p _
    by_cases hp : p.1.sensor = st
    · simp [hp, hst]
    · simp [hp]
  apply Prod.ext
  · rw [filter_sensor_fst, filter_sensor_fst, hfil]
  · rw [filter_sensor_snd, filter_sensor_snd]
    simp only [declaredMaxes]
    rw [hfil]

/-- C9: the Other bucket built for a redraw contains exactly the snapshot
entries tagged `Other(true)`, and entries tagged `Other(false)` contribute
to none of the five buckets (removing them leaves every bucket and every
ceiling unchanged). -/
theorem others_bucket_discriminant (data : List (Psensor × ℚ)) :
    (drawBuckets data).others.1
      = (data.filter fun p => decide (p.1.sensor = PsensorType.other true)).map
          (fun p => (p.1.name, f64AsU64 p.2)) ∧
    drawBuckets (data.filter fun p => decide (¬ p.1.sensor = PsensorType.other false))
      = drawBuckets data := by
  constructor
  · exact filter_sensor_fst data (PsensorType.other true) 80
  · simp only [drawBuckets]
    rw [filter_sensor_drop_hidden _ _ _ (by decide),
      filter_sensor_drop_hidden _ _ _ (by decide),
      filter_sensor_drop_hidden _ _ _ (by decide),
      filter_sensor_drop_hidden _ _ _ (by decide),
      filter_sensor_drop_hidden _ _ _ (by decide)]

/-! ### C10: the float-to-u64 conversion -/

/-- C10 fails as stated: the reading `-1` is handed to the chart as `0`
(the Rust `as u64` cast saturates at `0`), not as its truncation toward zero
`-1`. -/
theorem chart_value_not_plain_truncation :
    (filter_sensor [(⟨0, "s", PsensorType.cpu, none⟩, -1)] PsensorType.cpu 80).1
      = [("s", 0)] ∧ ratTrunc (-1) = -1 ∧ ¬ ((0 : Int) = -1) := by
  refine ⟨by decide, by decide, by decide⟩

/-- C10 (amended): every selected reading is handed to the chart converted
by truncation toward zero saturated to the u64 range (negative readings
become 0, values at least `2^64` become `2^64 - 1`), and each declared max
is likewise converted before the category maximum is taken. -/
theorem chart_values_saturating_truncation (data : List (Psensor × ℚ))
    (st : PsensorType) (d : Nat) :
    (filter_sensor data st d).1
      = (data.filter fun p => decide (p.1.sensor = st)).map
          (fun p => (p.1.name, min (ratTrunc p.2).toNat (2 ^ 64 - 1))) ∧
    (filter_sensor data st d).2
      = ((declaredMaxes data st).map
          fun q => min (ratTrunc q).toNat (2 ^ 64 - 1)).max?.getD d :=
  ⟨filter_sensor_fst data st d, filter_sensor_snd data st d⟩

/-! ### C3, C4: the poller update loop -/

theorem applyUpdate_map_fst (data : List (Psensor × ℚ)) (sid : Nat) (v : ℚ) :
    (applyUpdate data sid v).map Prod.fst = data.map Prod.fst := by
  induction data with
  | nil => rfl
  | cons p rest ih =>
    obtain ⟨s, value⟩ := p
    by_cases h : sid = s.id <;> simp [applyUpdate, h, ih]

theorem applyUpdates_map_fst (events : List (Nat × ℚ)) :
    ∀ data : List (Psensor × ℚ),
      (applyUpdates data events).map Prod.fst = data.map Prod.fst := by
  induction events with
  | nil => intro data; rfl
  | cons e rest ih =>
    intro data
    calc (applyUpdates data (e :: rest)).map Prod.fst
        = (applyUpdates (applyUpdate data e.1 e.2) rest).map Prod.fst := rfl
      _ = (applyUpdate data e.1 e.2).map Prod.fst := ih _
      _ = data.map Prod.fst := applyUpdate_map_fst data e.1 e.2

theorem applyUpdates_append (data : List (Psensor × ℚ)) (evs evs' : List (Nat × ℚ)) :
    applyUpdates data (evs ++ evs') = applyUpdates (applyUpdates data evs) evs' := by
  simp [applyUpdates, List.foldl_append]

theorem applyUpdates_pairwise_ids (data : List (Psensor × ℚ)) (events : List (Nat × ℚ))
    (h : data.Pairwise fun p q => p.1.id ≠ q.1.id) :
    (applyUpdates data events).Pairwise fun p q => p.1.id ≠ q.1.id := by
  have h2 : (data.map Prod.fst).Pairwise (fun a b : Psensor => a.id ≠ b.id) :=
    (List.pairwise_map (R := fun a b : Psensor => a.id ≠ b.id)).mpr h
  have h3 : ((applyUpdates data events).map Prod.fst).Pairwise
      (fun a b : Psensor => a.id ≠ b.id) := by
    rw [applyUpdates_map_fst]; exact h2
  exact (List.pairwise_map (R := fun a b : Psensor => a.id ≠ b.id)).mp h3

/-- One poller step on a table with pairwise-distinct descriptor ids: the
entry whose id matches is overwritten with the delivered value, every other
entry is untouched. -/
theorem applyUpdate_getElem (sid : Nat) (v : ℚ) :
    ∀ data : List (Psensor × ℚ),
      data.Pairwise (fun p q => p.1.id ≠ q.1.id) → ∀ k : Nat,
      (applyUpdate data sid v)[k]?
        = (data[k]?).map fun p => if p.1.id = sid then (p.1, v) else p := by
  intro data
  induction data with
  | nil => intro _ k; simp [applyUpdate]
  | cons p rest ih =>
    intro hp k
    obtain ⟨s, value⟩ := p
    rw [List.pairwise_cons] at hp
    by_cases hs : sid = s.id
    · cases k with
      | zero => simp [applyUpdate, hs]
      | succ n =>
        simp only [applyUpdate, if_pos hs, List.getElem?_cons_succ]
        cases hr : rest[n]? with
        | none => simp
        | some q =>
          have hq : q ∈ rest := by
            obtain ⟨hlt, hget⟩ := List.getElem?_eq_some_iff.mp hr
            exact hget ▸ List.getElem_mem hlt
          have hne : ¬ (q.1.id = sid) := by
            intro hc
            exact hp.1 q hq (by rw [← hs, hc])
          simp [hne]
    · cases k with
      | zero =>
        have hne : ¬ (s.id = sid) := fun hc => hs hc.symm
        simp [applyUpdate, if_neg hs, hne]
      | succ n =>
        simp only [applyUpdate, if_neg hs, List.getElem?_cons_succ]
        exact ih hp.2 n

/-- C3: after each delivered `(id, value)` event, the table entry whose
descriptor id matches holds exactly the delivered value, every other
value of every other entry and every descriptor are unchanged (stated after an arbitrary
prefix of earlier events, for a table with pairwise-distinct ids). -/
theorem poller_update_exact (data : List (Psensor × ℚ)) (events : List (Nat × ℚ))
    (e : Nat × ℚ) (hids : data.Pairwise fun p q => p.1.id ≠ q.1.id) :
    (applyUpdates data (events ++ [e])).map Prod.fst
        = (applyUpdates data events).map Prod.fst ∧
    ∀ k : Nat,
      (applyUpdates data (events ++ [e]))[k]?
        = ((applyUpdates data events)[k]?).map
            fun p => if p.1.id = e.1 then (p.1, e.2) else p := by
  have hstep : applyUpdates data (events ++ [e])
      = applyUpdate (applyUpdates data events) e.1 e.2 := by
    rw [applyUpdates_append]; rfl
  constructor
  · rw [hstep, applyUpdate_map_fst]
  · intro k
    rw [hstep]
    exact applyUpdate_getElem e.1 e.2 _ (applyUpdates_pairwise_ids data events hids) k

/-- Witness for C3: the scenario from the spec, two CPU sensors initialized to 1,
after `(1, 45)` the event `(2, 70)` rewrites exactly entry 1. -/
theorem poller_update_exact_witness :
    (applyUpdates
        [(⟨1, "Core0", PsensorType.cpu, none⟩, 1), (⟨2, "Core1", PsensorType.cpu, some 85⟩, 1)]
        ([(1, 45)] ++ [(2, 70)]))[1]?
      = ((applyUpdates
          [(⟨1, "Core0", PsensorType.cpu, none⟩, 1), (⟨2, "Core1", PsensorType.cpu, some 85⟩, 1)]
          [(1, 45)])[1]?).map (fun p => if p.1.id = 2 then (p.1, 70) else p) :=
  (poller_update_exact _ [(1, 45)] (2, 70) (by decide)).2 1

/-- C4: an update whose id matches no table entry leaves the whole table
unchanged. -/
theorem unmatched_update_noop (data : List (Psensor × ℚ)) (sid : Nat) (v : ℚ)
    (h : ∀ p ∈ data, p.1.id ≠ sid) :
    applyUpdate data sid v = data := by
  induction data with
  | nil => rfl
  | cons p rest ih =>
    obtain ⟨s, value⟩ := p
    have hne : ¬ (sid = s.id) :=
      fun hc => h (s, value) (List.mem_cons_self _ _) hc.symm
    rw [applyUpdate, if_neg hne, ih fun q hq => h q (List.mem_cons_of_mem _ hq)]

/-- Witness for C4: an update with unknown id 99 leaves a one-entry table
unchanged. -/
theorem unmatched_update_noop_witness :
    applyUpdate [(⟨1, "Core0", PsensorType.cpu, none⟩, 1)] 99 5
      = [(⟨1, "Core0", PsensorType.cpu, none⟩, 1)] :=
  unmatched_update_noop _ 99 5 (by decide)

/-! ### C1: the ceiling is determined by the maximal declared max -/

theorem ratTrunc_toNat_mono {a b : ℚ} (hab : a ≤ b) :
    (ratTrunc a).toNat ≤ (ratTrunc b).toNat := by
  by_cases ha : 0 < a.num
  · have hb : 0 < b.num := Rat.num_pos.mpr (lt_of_lt_of_le (Rat.num_pos.mp ha) hab)
    have hA : ratTrunc a = ((a.num.natAbs / a.den : Nat) : Int) := by
      simp only [ratTrunc]
      rw [Int.sign_eq_one_iff_pos.mpr ha, one_mul]
    have hB : ratTrunc b = ((b.num.natAbs / b.den : Nat) : Int) := by
      simp only [ratTrunc]
      rw [Int.sign_eq_one_iff_pos.mpr hb, one_mul]
    rw [hA, hB, Int.toNat_natCast, Int.toNat_natCast]
    have ha' : ((a.num.natAbs : Int)) = a.num := Int.natAbs_of_nonneg (le_of_lt ha)
    have hb' : ((b.num.natAbs : Int)) = b.num := Int.natAbs_of_nonneg (le_of_lt hb)
    have key : a.num.natAbs * b.den ≤ b.num.natAbs * a.den := by
      have hle := Rat.le_def.mp hab
      have : ((a.num.natAbs * b.den : Nat) : Int) ≤ ((b.num.natAbs * a.den : Nat) : Int) := by
        push_cast
        rw [abs_of_pos ha, abs_of_pos hb]
        exact_mod_cast hle
      exact_mod_cast this
    have h1 : a.num.natAbs / a.den * a.den ≤ a.num.natAbs := Nat.div_mul_le_self _ _
    have h3 : a.num.natAbs / a.den * b.den * a.den ≤ b.num.natAbs * a.den := by
      calc a.num.natAbs / a.den * b.den * a.den
          = a.num.natAbs / a.den * a.den * b.den := by ring
        _ ≤ a.num.natAbs * b.den := Nat.mul_le_mul_right _ h1
        _ ≤ b.num.natAbs * a.den := key
    have h4 : a.num.natAbs / a.den * b.den ≤ b.num.natAbs :=
      Nat.le_of_mul_le_mul_right h3 a.den_pos
    exact (Nat.le_div_iff_mul_le b.den_pos).mpr h4
  · have h0 : a.num ≤ 0 := le_of_not_lt ha
    have hsig : a.num.sign ≤ 0 := by
      rcases lt_or_eq_of_le h0 with h | h
      · rw [Int.sign_eq_neg_one_of_neg h]; decide
      · rw [h]; decide
    have hnp : ratTrunc a ≤ 0 := by
      simp only [ratTrunc]
      exact mul_nonpos_of_nonpos_of_nonneg hsig (by positivity)
    rw [Int.toNat_eq_zero.mpr hnp]
    exact Nat.zero_le _

theorem f64AsU64_mono : Monotone f64AsU64 :=
  fun _ _ hab => min_le_min (ratTrunc_toNat_mono hab) (le_refl _)

theorem foldl_max_map_f64 (l : List ℚ) (a : ℚ) :
    (l.map f64AsU64).foldl max (f64AsU64 a) = f64AsU64 (l.foldl max a) := by
  induction l generalizing a with
  | nil => rfl
  | cons b l ih =>
    simp only [List.map_cons, List.foldl_cons]
    rw [← f64AsU64_mono.map_max]
    exact ih (max a b)

theorem max?_map_f64 (l : List ℚ) :
    (l.map f64AsU64).max? = l.max?.map f64AsU64 := by
  cases l with
  | nil => rfl
  | cons a l => simp [List.max?, foldl_max_map_f64]

theorem natMax?_perm {l l' : List ℕ} (h : l.Perm l') : l.max? = l'.max? := by
  cases l with
  | nil =>
    rw [List.Perm.eq_nil h.symm]
  | cons a t =>
    cases l' with
    | nil => exact absurd h.eq_nil (by simp)
    | cons b t' =>
      simp only [List.max?]
      congr 1
      have h1 : t.foldl max a = (a :: t).foldl max 0 := by
        simp [List.foldl_cons, Nat.zero_max]
      have h2 : t'.foldl max b = (b :: t').foldl max 0 := by
        simp [List.foldl_cons, Nat.zero_max]
      rw [h1, h2]
      exact h.foldl_eq 0

/-- C1 fails as stated: a CPU sensor declaring the numeric (non-NaN) max
`-5` yields chart ceiling `0` (the saturating u64 cast of `-5`), which does
not equal the maximum `-5` of the declared max values. -/
theorem ceiling_equals_declared_max_counterexample :
    (declaredMaxes [(⟨0, "t", PsensorType.cpu, some (-5)⟩, 1)] PsensorType.cpu).max?
        = some (-5) ∧
    ¬ (((filter_sensor [(⟨0, "t", PsensorType.cpu, some (-5)⟩, 1)] PsensorType.cpu 80).2 : ℚ)
        = (-5 : ℚ)) := by
  constructor
  · decide
  · have hv : (filter_sensor [(⟨0, "t", PsensorType.cpu, some (-5)⟩, 1)]
        PsensorType.cpu 80).2 = 0 := by decide
    rw [hv]
    norm_num

/-- C1 (amended): whenever at least one sensor of the category declares a
numeric (non-NaN) max, the chart ceiling equals the saturating u64
truncation of the maximum of those declared max values — and the ceiling is
independent of the order of entries in the snapshot. -/
theorem ceiling_cast_of_declared_max (data : List (Psensor × ℚ)) (st : PsensorType)
    (d : Nat) (m : ℚ) (hm : (declaredMaxes data st).max? = some m) :
    (filter_sensor data st d).2 = f64AsU64 m ∧
    ∀ data' : List (Psensor × ℚ), data.Perm data' →
      (filter_sensor data' st d).2 = (filter_sensor data st d).2 := by
  constructor
  · rw [filter_sensor_snd, max?_map_f64, hm]
    rfl
  · intro data' hperm
    rw [filter_sensor_snd, filter_sensor_snd]
    congr 1
    apply natMax?_perm
    apply List.Perm.map
    exact (List.Perm.filterMap _ (List.Perm.map _ (hperm.filter _))).symm

/-- Witness for C1 (amended): one CPU sensor with declared max 85 gives
ceiling `f64AsU64 85 = 85`. -/
theorem ceiling_cast_of_declared_max_witness :
    (filter_sensor [(⟨0, "t", PsensorType.cpu, some 85⟩, 1)] PsensorType.cpu 80).2
      = f64AsU64 85 :=
  (ceiling_cast_of_declared_max _ PsensorType.cpu 80 85 (by decide)).1

/-! ### C5, C6: the event loop -/

theorem ite_size (cur size : Rect) : (if cur = size then cur else size) = size := by
  by_cases h : cur = size <;> simp [h]

theorem mainLoop_cons_quit (size : Rect) (rest : List (Rect × Event)) (cur : Rect) :
    mainLoop ((size, Event.input quitKey) :: rest) cur
      = ((if cur ≠ size then [Action.resize size] else []) ++ [Action.showCursor],
          LoopState.terminating) := by
  simp [mainLoop]

theorem mainLoop_cons_input (size : Rect) (k : Key) (rest : List (Rect × Event))
    (cur : Rect) (hk : k ≠ quitKey) :
    mainLoop ((size, Event.input k) :: rest) cur
      = ((if cur ≠ size then [Action.resize size] else [])
            ++ Action.draw :: (mainLoop rest size).1,
          (mainLoop rest size).2) := by
  simp [mainLoop, hk, ite_size]

theorem mainLoop_cons_tick (size : Rect) (rest : List (Rect × Event)) (cur : Rect) :
    mainLoop ((size, Event.tick) :: rest) cur
      = ((if cur ≠ size then [Action.resize size] else [])
            ++ Action.draw :: (mainLoop rest size).1,
          (mainLoop rest size).2) := by
  simp [mainLoop, ite_size]

theorem count_showCursor_pre (b : Bool) (size : Rect) :
    List.count Action.showCursor (if b then [Action.resize size] else []) = 0 := by
  cases b <;> simp [List.count_cons]

/-- C5: the loop reaches `Terminating` exactly when an `Input(quit_key)`
event is among the consumed events, and the trace holds exactly one
cursor-restore action once terminated (none while still running),
regardless of how many events precede the quit event. -/
theorem quit_transition_and_cursor_restore (events : List (Rect × Event)) (init : Rect) :
    ((mainLoop events init).2 = LoopState.terminating
        ↔ ∃ p ∈ events, p.2 = Event.input quitKey) ∧
    (mainLoop events init).1.count Action.showCursor
      = (if (mainLoop events init).2 = LoopState.terminating then 1 else 0) := by
  induction events generalizing init with
  | nil => simp [mainLoop]
  | cons pe rest ih =>
    obtain ⟨size, evt⟩ := pe
    cases evt with
    | input k =>
      by_cases hk : k = quitKey
      · subst hk
        rw [mainLoop_cons_quit]
        constructor
        · constructor
          · intro _
            exact ⟨(size, Event.input quitKey), List.mem_cons_self _ _, rfl⟩
          · intro _; rfl
        · by_cases hsz : init ≠ size <;>
            simp [hsz, List.count_append, List.count_cons]
      · rw [mainLoop_cons_input size k rest init hk]
        obtain ⟨ih1, ih2⟩ := ih size
        constructor
        · rw [show (((if init ≠ size then [Action.resize size] else [])
              ++ Action.draw :: (mainLoop rest size).1,
              (mainLoop rest size).2)).2 = (mainLoop rest size).2 from rfl, ih1]
          constructor
          · rintro ⟨p, hp, hpe⟩
            exact ⟨p, List.mem_cons_of_mem _ hp, hpe⟩
          · rintro ⟨p, hp, hpe⟩
            rcases List.mem_cons.mp hp with h | h
            · exfalso
              rw [h] at hpe
              exact hk (Event.input.inj hpe)
            · exact ⟨p, h, hpe⟩
        · by_cases hsz : init ≠ size <;>
            simp [hsz, List.count_append, List.count_cons, ih2]
    | tick =>
      rw [mainLoop_cons_tick]
      obtain ⟨ih1, ih2⟩ := ih size
      constructor
      · rw [show (((if init ≠ size then [Action.resize size] else [])
            ++ Action.draw :: (mainLoop rest size).1,
            (mainLoop rest size).2)).2 = (mainLoop rest size).2 from rfl, ih1]
        constructor
        · rintro ⟨p, hp, hpe⟩
          exact ⟨p, List.mem_cons_of_mem _ hp, hpe⟩
        · rintro ⟨p, hp, hpe⟩
          rcases List.mem_cons.mp hp with h | h
          · exfalso
            rw [h] at hpe
            exact Event.noConfusion hpe
          · exact ⟨p, h, hpe⟩
      · by_cases hsz : init ≠ size <;>
          simp [hsz, List.count_append, List.count_cons, ih2]

/-- C6: when the queried terminal size differs from the stored one and the
received event is not the quit key, the trace of that iteration is exactly one
resize call carrying the new size followed by the redraw, then the rest of
the loop run from the updated geometry. -/
theorem resize_before_redraw (size : Rect) (evt : Event) (rest : List (Rect × Event))
    (cur : Rect) (hne : cur ≠ size) (hq : evt ≠ Event.input quitKey) :
    (mainLoop ((size, evt) :: rest) cur).1
      = Action.resize size :: Action.draw :: (mainLoop rest size).1 := by
  cases evt with
  | input k =>
    have hk : k ≠ quitKey := fun h => hq (by rw [h])
    simp [mainLoop, hne, hk]
  | tick => simp [mainLoop, hne]

/-- Witness for C6: stored height 25, queried height 24 — the trace starts
with the resize to the new size, then the draw. -/
theorem resize_before_redraw_witness :
    (mainLoop [(⟨0, 0, 80, 24⟩, Event.tick)] ⟨0, 0, 80, 25⟩).1
      = Action.resize ⟨0, 0, 80, 24⟩ :: Action.draw :: (mainLoop [] ⟨0, 0, 80, 24⟩).1 :=
  resize_before_redraw ⟨0, 0, 80, 24⟩ Event.tick [] ⟨0, 0, 80, 25⟩ (by decide) (by decide)

/-! ### C7: the input listener -/

/-- C7: the listener forwards every key before the first quit key as an
`Input` event, forwards the quit key itself, and sends nothing after it;
with no quit key present it forwards every key and keeps reading. -/
theorem listener_forwards_until_quit (keys : List Key) :
    inputListener keys
      = ((keys.takeWhile fun k => decide (k ≠ quitKey))
          ++ if quitKey ∈ keys then [quitKey] else []).map Event.input := by
  induction keys with
  | nil => rfl
  | cons k rest ih =>
    by_cases hk : k = quitKey
    · subst hk
      simp [inputListener, List.takeWhile_cons]
    · have hk' : ¬ (quitKey = k) := fun h => hk h.symm
      simp [inputListener, List.takeWhile_cons, hk, hk', ih, List.mem_cons]

/-! ### C8: startup initialization of the telemetry table -/

/-- C8: at startup the telemetry table holds exactly the discovered
sensors, in discovery order, each paired with the sentinel value 1. -/
theorem telemetry_table_init (sensors : List Psensor) :
    ((App.new sensors).data).map Prod.fst = sensors ∧
    ((App.new sensors).data).map Prod.snd = List.replicate sensors.length (1 : ℚ) := by
  constructor
  · simp [App.new, List.map_map, Function.comp_def]
  · simp [App.new, List.map_map, Function.comp_def]

end Tsensor
